import Mathlib

/-!
Verification development for a small scripting-language interpreter
(lexer, recursive-descent parser, tree-walking evaluator).

The source program is embedded shallowly:
* source text is a `List Char`;
* the lexer's ordered regex table becomes `tokenRegexMatch` plus the
  priority list `tokenOrder`, and `tokenize` consumes the text with
  explicit fuel (each successful match consumes at least one character,
  so fuel equal to the text length suffices);
* the parser's mutable cursor becomes explicit token-list passing; the
  mutually recursive expression productions are merged into one
  fuel-indexed function `parseE` over a mode tag (one mode per source
  method), and likewise `parseS` for statements;
* Python's `SyntaxError` raises become `Except` errors; the unguarded
  `self.peek()[0]` subscript of `None` (a `TypeError` crash, distinct
  from a `SyntaxError`) is modelled by the dedicated error
  `PErr.noneSubscript`;
* runtime values form a closed tagged union; Python floats are modelled
  exactly as rationals (the claims under study concern zero tests and
  non-truncation, not rounding); Python truthiness of a while condition
  is the function `truthy`;
* the evaluator threads a state (variables, printed values, pending
  input lines) and runs with fuel, since source while loops may diverge.
-/

/-- Token kinds, in the exact spelling of the source's token table. -/
inductive TokTy where
  | WHILE | PRINT | INPUT | NUMBER | STRING | IDENTIFIER
  | ASSIGN | PLUS | MINUS | MULTIPLY | DIVIDE
  | LPAREN | RPAREN | LBRACE | RBRACE | LESS | GREATER | SEMICOLON
  | WHITESPACE | NEWLINE
  deriving DecidableEq, Repr

/-- A token: kind and matched lexeme. -/
structure Token where
  ty : TokTy
  val : List Char
  deriving DecidableEq, Repr

def kwWhile : List Char := ['w', 'h', 'i', 'l', 'e']

def kwPrint : List Char := ['p', 'r', 'i', 'n', 't']

def kwInput : List Char := ['i', 'n', 'p', 'u', 't']

/-- Strip a literal pattern from the front of the text (regex literal match). -/
def stripLit : List Char → List Char → Option (List Char)
  | [], code => some code
  | _ :: _, [] => none
  | p :: ps, c :: cs => if p = c then stripLit ps cs else none

/-- Match a literal pattern, returning (lexeme, rest). -/
def litMatch (pat code : List Char) : Option (List Char × List Char) :=
  (stripLit pat code).map fun rest => (pat, rest)

/-- Greedy span: longest prefix whose characters satisfy `p`, and the rest. -/
def spanP (p : Char → Bool) : List Char → List Char × List Char
  | [] => ([], [])
  | c :: cs =>
    if p c then
      let r := spanP p cs
      (c :: r.1, r.2)
    else ([], c :: cs)

def isDigitC (c : Char) : Bool := '0' ≤ c && c ≤ '9'

def isIdentStart (c : Char) : Bool :=
  ('a' ≤ c && c ≤ 'z') || ('A' ≤ c && c ≤ 'Z') || c = '_'

def isIdentChar (c : Char) : Bool := isIdentStart c || isDigitC c

/-- One regex rule of the source's token table: try to match kind `t`
at the start of `code`, returning (lexeme, rest of the text).
Greedy classes (`\d+`, identifiers, whitespace) take the longest run;
the string rule is the non-greedy `\".*?\"` whose dot excludes newlines. -/
def tokenRegexMatch : TokTy → List Char → Option (List Char × List Char)
  | .WHILE, code => litMatch kwWhile code
  | .PRINT, code => litMatch kwPrint code
  | .INPUT, code => litMatch kwInput code
  | .NUMBER, code =>
    let r := spanP isDigitC code
    if r.1.isEmpty then none else some (r.1, r.2)
  | .STRING, code =>
    match code with
    | '"' :: rest =>
      let r := spanP (fun c => !(c = '"') && !(c = '\n')) rest
      match r.2 with
      | '"' :: rest2 => some ('"' :: (r.1 ++ ['"']), rest2)
      | _ => none
    | _ => none
  | .IDENTIFIER, code =>
    match code with
    | c :: cs =>
      if isIdentStart c then
        let r := spanP isIdentChar cs
        some (c :: r.1, r.2)
      else none
    | [] => none
  | .ASSIGN, code => litMatch ['='] code
  | .PLUS, code => litMatch ['+'] code
  | .MINUS, code => litMatch ['-'] code
  | .MULTIPLY, code => litMatch ['*'] code
  | .DIVIDE, code => litMatch ['/'] code
  | .LPAREN, code => litMatch ['('] code
  | .RPAREN, code => litMatch [')'] code
  | .LBRACE, code => litMatch ['{'] code
  | .RBRACE, code => litMatch ['}'] code
  | .LESS, code => litMatch ['<'] code
  | .GREATER, code => litMatch ['>'] code
  | .SEMICOLON, code => litMatch [';'] code
  | .WHITESPACE, code =>
    let r := spanP (fun c => c = ' ' || c = '\t') code
    if r.1.isEmpty then none else some (r.1, r.2)
  | .NEWLINE, code => litMatch ['\n'] code

/-- The priority order of the source's token table (dict insertion order). -/
def tokenOrder : List TokTy :=
  [.WHILE, .PRINT, .INPUT, .NUMBER, .STRING, .IDENTIFIER,
   .ASSIGN, .PLUS, .MINUS, .MULTIPLY, .DIVIDE,
   .LPAREN, .RPAREN, .LBRACE, .RBRACE, .LESS, .GREATER, .SEMICOLON,
   .WHITESPACE, .NEWLINE]

/-- First rule in the given priority list that matches the text. -/
def firstMatchAux : List TokTy → List Char → Option (TokTy × List Char × List Char)
  | [], _ => none
  | t :: ts, code =>
    match tokenRegexMatch t code with
    | some (v, rest) => some (t, v, rest)
    | none => firstMatchAux ts code

/-- First matching rule of the full table, as the source's inner for-loop. -/
def firstMatch (code : List Char) : Option (TokTy × List Char × List Char) :=
  firstMatchAux tokenOrder code

/-- Lexer outcome: token list, lexical error at a character, or fuel ran out. -/
inductive LexResult where
  | ok (ts : List Token)
  | err (c : Char)
  | timeout
  deriving DecidableEq, Repr

/-- The source's `tokenize` loop, with explicit fuel.  Whitespace and
newline matches are consumed but dropped; an unmatched position aborts
with the offending character. -/
def tokenize : Nat → List Char → LexResult
  | _, [] => .ok []
  | 0, _ :: _ => .timeout
  | fuel + 1, c :: cs =>
    match firstMatch (c :: cs) with
    | none => .err c
    | some (ty, v, rest) =>
      match tokenize fuel rest with
      | .ok ts =>
        .ok (if ty = .WHITESPACE ∨ ty = .NEWLINE then ts else ⟨ty, v⟩ :: ts)
      | r => r

/-- Lex a text with the fuel that always suffices (its length). -/
def lex (src : List Char) : LexResult := tokenize src.length src

/-- Expression AST: the source's tagged tuples
('number', n), ('string', s), ('identifier', x), ('binary_op', op, l, r).
The operator tag is the token kind, exactly as the source stores it. -/
inductive Expr where
  | num (n : Int)
  | str (s : List Char)
  | ident (x : List Char)
  | binop (op : TokTy) (l : Expr) (r : Expr)
  deriving DecidableEq, Repr

/-- Statement AST: ('assign', var, e), ('print', e), ('input', var),
('while', cond, body). -/
inductive Stmt where
  | assign (x : List Char) (e : Expr)
  | sprint (e : Expr)
  | sinput (x : List Char)
  | swhile (c : Expr) (body : List Stmt)

/-- Parser failure modes.  `expectedTok`, `unexpectedTok` and
`invalidStmt` are the source's three `SyntaxError` raises;
`noneSubscript` is the `TypeError` crash of subscripting
`self.peek()` when it is `None` (no token left at a position where the
source indexes the peeked token without a guard); `fuelOut` is the
embedding's fuel exhaustion, never reached on the concrete programs
considered. -/
inductive PErr where
  | expectedTok (e : TokTy) (found : Option Token)
  | unexpectedTok (t : Token)
  | invalidStmt (t : Token)
  | noneSubscript
  | fuelOut
  deriving DecidableEq, Repr

/-- The source's `Parser.expect`: consume a token of the wanted kind or
fail with the expected kind and the token actually found (`none` at end
of input). -/
def expect (e : TokTy) (ts : List Token) : Except PErr (Token × List Token) :=
  match ts with
  | t :: rest =>
    if t.ty = e then .ok (t, rest) else .error (.expectedTok e (some t))
  | [] => .error (.expectedTok e none)

/-- `int(...)` on a digit lexeme. -/
def charsToNat : List Char → Nat :=
  List.foldl (fun acc c => acc * 10 + (c.toNat - '0'.toNat)) 0

/-- `Parser.parse_number`. -/
def parse_number (ts : List Token) : Except PErr (Expr × List Token) :=
  match expect .NUMBER ts with
  | .ok (t, rest) => .ok (.num (charsToNat t.val), rest)
  | .error e => .error e

/-- `Parser.parse_identifier`, reduced to the name it reads. -/
def parse_identName (ts : List Token) : Except PErr (List Char × List Token) :=
  match expect .IDENTIFIER ts with
  | .ok (t, rest) => .ok (t.val, rest)
  | .error e => .error e

/-- `Parser.parse_string`: strips the surrounding quote characters
(`token[1][1:-1]`).  Dead code in the source: no other production ever
calls it, so string literals are unreachable from `parse_factor`. -/
def parse_string (ts : List Token) : Except PErr (Expr × List Token) :=
  match expect .STRING ts with
  | .ok (t, rest) => .ok (.str ((t.val.drop 1).dropLast), rest)
  | .error e => .error e

/-- One mode per expression-level parsing method of the source:
`factor`, `term`, `expression`, `comparison`, plus the two in-method
while-loops that fold left-associative operator chains. -/
inductive EMode where
  | factor | term | expr | comparison
  | termLoop (l : Expr) | exprLoop (l : Expr)

/-- The source's mutually recursive expression productions, merged into
one fuel-indexed function (one mode per method).  `factor` mirrors
`parse_factor`: it subscripts the peeked token before any guard, so an
empty token list is the `noneSubscript` crash, and a token that is not
NUMBER, IDENTIFIER or LPAREN is the `unexpectedTok` syntax error. -/
def parseE : Nat → EMode → List Token → Except PErr (Expr × List Token)
  | 0, _, _ => .error .fuelOut
  | fuel + 1, m, ts =>
    match m with
    | .factor =>
      match ts with
      | [] => .error .noneSubscript
      | t :: _ =>
        if t.ty = .NUMBER then parse_number ts
        else if t.ty = .IDENTIFIER then
          match parse_identName ts with
          | .ok (x, rest) => .ok (.ident x, rest)
          | .error e => .error e
        else if t.ty = .LPAREN then
          match parseE fuel .expr (ts.drop 1) with
          | .ok (e, ts2) =>
            match expect .RPAREN ts2 with
            | .ok (_, ts3) => .ok (e, ts3)
            | .error er => .error er
          | .error er => .error er
        else .error (.unexpectedTok t)
    | .term =>
      match parseE fuel .factor ts with
      | .ok (l, ts1) => parseE fuel (.termLoop l) ts1
      | .error e => .error e
    | .termLoop l =>
      match ts with
      | t :: rest =>
        if t.ty = .MULTIPLY ∨ t.ty = .DIVIDE then
          match parseE fuel .factor rest with
          | .ok (r, ts2) => parseE fuel (.termLoop (.binop t.ty l r)) ts2
          | .error e => .error e
        else .ok (l, t :: rest)
      | [] => .ok (l, [])
    | .expr =>
      match parseE fuel .term ts with
      | .ok (l, ts1) => parseE fuel (.exprLoop l) ts1
      | .error e => .error e
    | .exprLoop l =>
      match ts with
      | t :: rest =>
        if t.ty = .PLUS ∨ t.ty = .MINUS then
          match parseE fuel .term rest with
          | .ok (r, ts2) => parseE fuel (.exprLoop (.binop t.ty l r)) ts2
          | .error e => .error e
        else .ok (l, t :: rest)
      | [] => .ok (l, [])
    | .comparison =>
      match parseE fuel .expr ts with
      | .ok (l, ts1) =>
        match ts1 with
        | t :: rest =>
          if t.ty = .GREATER ∨ t.ty = .LESS then
            match parseE fuel .expr rest with
            | .ok (r, ts2) => .ok (.binop t.ty l r, ts2)
            | .error e => .error e
          else .ok (l, t :: rest)
        | [] => .ok (l, [])
      | .error e => .error e

/-- `Parser.parse_expression`. -/
def parse_expression (fuel : Nat) (ts : List Token) : Except PErr (Expr × List Token) :=
  parseE fuel .expr ts

/-- `Parser.parse_factor`. -/
def parse_factor (fuel : Nat) (ts : List Token) : Except PErr (Expr × List Token) :=
  parseE fuel .factor ts

/-- `Parser.parse_comparison`. -/
def parse_comparison (fuel : Nat) (ts : List Token) : Except PErr (Expr × List Token) :=
  parseE fuel .comparison ts

/-- The optional-semicolon step of `parse_statements`. -/
def skipSemi : List Token → List Token
  | t :: rest => if t.ty = .SEMICOLON then rest else t :: rest
  | [] => []

/-- `one` parses a single statement (`parse_statement`, returned as a
singleton); `many` parses a statement sequence (`parse_statements`). -/
inductive SMode where
  | one | many

/-- The source's statement productions, merged into one fuel-indexed
function.  `one` dispatches on the peeked token exactly as
`parse_statement` (subscripting it before any guard, hence
`noneSubscript` on empty input); `many` reads statements until RBRACE
or end of input, consuming an optional semicolon after each. -/
def parseS : Nat → SMode → List Token → Except PErr (List Stmt × List Token)
  | 0, _, _ => .error .fuelOut
  | fuel + 1, .one, ts =>
    match ts with
    | [] => .error .noneSubscript
    | t :: _ =>
      if t.ty = .IDENTIFIER then
        match parse_identName ts with
        | .ok (x, ts1) =>
          match expect .ASSIGN ts1 with
          | .ok (_, ts2) =>
            match parseE fuel .expr ts2 with
            | .ok (e, ts3) => .ok ([.assign x e], ts3)
            | .error er => .error er
          | .error er => .error er
        | .error er => .error er
      else if t.ty = .PRINT then
        match expect .PRINT ts with
        | .ok (_, ts1) =>
          match parseE fuel .expr ts1 with
          | .ok (e, ts2) => .ok ([.sprint e], ts2)
          | .error er => .error er
        | .error er => .error er
      else if t.ty = .INPUT then
        match expect .INPUT ts with
        | .ok (_, ts1) =>
          match parse_identName ts1 with
          | .ok (x, ts2) => .ok ([.sinput x], ts2)
          | .error er => .error er
        | .error er => .error er
      else if t.ty = .WHILE then
        match expect .WHILE ts with
        | .ok (_, ts1) =>
          match parseE fuel .comparison ts1 with
          | .ok (c, ts2) =>
            match expect .LBRACE ts2 with
            | .ok (_, ts3) =>
              match parseS fuel .many ts3 with
              | .ok (body, ts4) =>
                match expect .RBRACE ts4 with
                | .ok (_, ts5) => .ok ([.swhile c body], ts5)
                | .error er => .error er
              | .error er => .error er
            | .error er => .error er
          | .error er => .error er
        | .error er => .error er
      else .error (.invalidStmt t)
  | fuel + 1, .many, ts =>
    match ts with
    | [] => .ok ([], [])
    | t :: _ =>
      if t.ty = .RBRACE then .ok ([], ts)
      else
        match parseS fuel .one ts with
        | .ok (s, ts1) =>
          match parseS fuel .many (skipSemi ts1) with
          | .ok (rest, ts2) => .ok (s ++ rest, ts2)
          | .error er => .error er
        | .error er => .error er

/-- `Parser.parse`: the top-level statement sequence (tokens left after
the last recognized statement — e.g. a stray RBRACE — are ignored,
exactly as in the source). -/
def parse (fuel : Nat) (ts : List Token) : Except PErr (List Stmt) :=
  match parseS fuel .many ts with
  | .ok (ss, _) => .ok ss
  | .error e => .error e

/-- Runtime values: the closed dynamic union the evaluator produces.
Python floats (only ever created by `/`) are modelled exactly as
rationals; the claims under study concern the zero test and
non-truncation of division, which the rational model captures. -/
inductive Value where
  | int (n : Int)
  | float (q : ℚ)
  | str (s : List Char)
  | bool (b : Bool)
  deriving DecidableEq, Repr

/-- Runtime failure kinds: Python's `NameError` for an undefined
variable, `TypeError` for operand types an operator cannot combine,
`ZeroDivisionError` from `/`, `ValueError` for the evaluator's own
unknown-operator guard, and `EOFError` when `input()` finds the input
stream exhausted. -/
inductive RErr where
  | nameError (x : List Char)
  | typeError
  | zeroDivisionError
  | valueError
  | eofError
  deriving DecidableEq, Repr

/-- The variable table: name-to-value entries in insertion order, as a
Python dict. -/
abbrev Env := List (List Char × Value)

def lookupVar (x : List Char) : Env → Option Value
  | [] => none
  | (y, v) :: rest => if x = y then some v else lookupVar x rest

/-- `self.variables[name] = v`: overwrite in place, or append a new
entry (dict insertion-order semantics). -/
def setVar (x : List Char) (v : Value) : Env → Env
  | [] => [(x, v)]
  | (y, w) :: rest => if x = y then (x, v) :: rest else (y, w) :: setVar x v rest

/-- Numeric view of a value (Python: bool counts as its int value;
strings are not numeric). -/
def numQ : Value → Option ℚ
  | .int n => some (n : ℚ)
  | .float q => some q
  | .bool b => some (if b then 1 else 0)
  | .str _ => none

/-- Int-like view (Python int or bool): arithmetic on two int-likes
stays an int. -/
def intLike : Value → Option Int
  | .int n => some n
  | .bool b => some (if b then 1 else 0)
  | _ => none

/-- Python `str * int` repetition (a non-positive count gives the empty
string). -/
def strRepeat (s : List Char) (n : Int) : List Char :=
  (List.replicate n.toNat s).flatten

/-- Python's lexicographic string order (by code point). -/
def strLt : List Char → List Char → Bool
  | [], [] => false
  | [], _ :: _ => true
  | _ :: _, [] => false
  | a :: as, b :: bs => if a < b then true else if b < a then false else strLt as bs

/-- Python `+` on the value union: int-like + int-like is an int, any
other numeric mix is a float, string + string concatenates, everything
else is a `TypeError`. -/
def pyAdd (l r : Value) : Except RErr Value :=
  match intLike l, intLike r with
  | some a, some b => .ok (.int (a + b))
  | _, _ =>
    match numQ l, numQ r with
    | some a, some b => .ok (.float (a + b))
    | _, _ =>
      match l, r with
      | .str a, .str b => .ok (.str (a ++ b))
      | _, _ => .error .typeError

/-- Python `-`: numbers only. -/
def pySub (l r : Value) : Except RErr Value :=
  match intLike l, intLike r with
  | some a, some b => .ok (.int (a - b))
  | _, _ =>
    match numQ l, numQ r with
    | some a, some b => .ok (.float (a - b))
    | _, _ => .error .typeError

/-- Python `*`: numbers, or string repetition with an int-like count. -/
def pyMul (l r : Value) : Except RErr Value :=
  match intLike l, intLike r with
  | some a, some b => .ok (.int (a * b))
  | _, _ =>
    match numQ l, numQ r with
    | some a, some b => .ok (.float (a * b))
    | _, _ =>
      match l, intLike r with
      | .str s, some n => .ok (.str (strRepeat s n))
      | _, _ =>
        match intLike l, r with
        | some n, .str s => .ok (.str (strRepeat s n))
        | _, _ => .error .typeError

/-- Python `/`: true division, always a float; a zero divisor raises
`ZeroDivisionError`; non-numbers raise `TypeError`. -/
def pyDiv (l r : Value) : Except RErr Value :=
  match numQ l, numQ r with
  | some a, some b =>
    if b = 0 then .error .zeroDivisionError else .ok (.float (a / b))
  | _, _ => .error .typeError

/-- Python `<`: numeric comparison (bool as int) or lexicographic
string comparison; a string/number mix is a `TypeError`. -/
def pyLt (l r : Value) : Except RErr Value :=
  match numQ l, numQ r with
  | some a, some b => .ok (.bool (a < b))
  | _, _ =>
    match l, r with
    | .str a, .str b => .ok (.bool (strLt a b))
    | _, _ => .error .typeError

/-- Python `>`, the mirror of `<`. -/
def pyGt (l r : Value) : Except RErr Value :=
  match numQ l, numQ r with
  | some a, some b => .ok (.bool (b < a))
  | _, _ =>
    match l, r with
    | .str a, .str b => .ok (.bool (strLt b a))
    | _, _ => .error .typeError

/-- The operator dispatch of `eval_expression`'s binary_op branch; a
tag outside the six operators raises `ValueError` ("Unknown operator"). -/
def applyOp (op : TokTy) (l r : Value) : Except RErr Value :=
  match op with
  | .PLUS => pyAdd l r
  | .MINUS => pySub l r
  | .MULTIPLY => pyMul l r
  | .DIVIDE => pyDiv l r
  | .GREATER => pyGt l r
  | .LESS => pyLt l r
  | _ => .error .valueError

/-- `Interpreter.eval_expression`: literals to their values, identifier
lookup (undefined is a `NameError`), binary operators with the left
operand evaluated before the right. -/
def evalExpr (vars : Env) : Expr → Except RErr Value
  | .num n => .ok (.int n)
  | .str s => .ok (.str s)
  | .ident x =>
    match lookupVar x vars with
    | some v => .ok v
    | none => .error (.nameError x)
  | .binop op l r =>
    match evalExpr vars l with
    | .ok lv =>
      match evalExpr vars r with
      | .ok rv => applyOp op lv rv
      | .error e => .error e
    | .error e => .error e

/-- Python truthiness, as used by `while self.eval_expression(...):` —
a boolean is itself, a number is its non-zero test, a string its
non-emptiness test. -/
def truthy : Value → Bool
  | .bool b => b
  | .int n => n ≠ 0
  | .float q => q ≠ 0
  | .str s => !s.isEmpty

/-- Evaluator state: the variable table, the values printed so far, and
the lines still available to `input()`. -/
structure St where
  vars : Env
  output : List Value
  inputs : List (List Char)
  deriving DecidableEq, Repr

/-- Execution outcome: success, a runtime error together with the state
at the moment of failure, or fuel exhaustion of the embedding. -/
inductive Res where
  | ok (st : St)
  | err (e : RErr) (st : St)
  | timeout
  deriving DecidableEq, Repr

/-- `Interpreter.exec` / `exec_statement`, fuel-indexed.  A statement
list is executed in order, stopping at the first error with the state
it failed in.  A while statement re-evaluates its condition, coerces
the value with Python truthiness, runs the whole body, and loops (the
loop re-entry is the recursive call on the same singleton-headed list);
each loop iteration consumes one unit of fuel. -/
def run : Nat → St → List Stmt → Res
  | _, st, [] => .ok st
  | 0, _, _ :: _ => .timeout
  | fuel + 1, st, s :: rest =>
    match s with
    | .assign x e =>
      match evalExpr st.vars e with
      | .ok v => run fuel { st with vars := setVar x v st.vars } rest
      | .error er => .err er st
    | .sprint e =>
      match evalExpr st.vars e with
      | .ok v => run fuel { st with output := st.output ++ [v] } rest
      | .error er => .err er st
    | .sinput x =>
      match st.inputs with
      | line :: more =>
        run fuel { st with vars := setVar x (.str line) st.vars, inputs := more } rest
      | [] => .err .eofError st
    | .swhile c body =>
      match evalExpr st.vars c with
      | .ok v =>
        if truthy v then
          match run fuel st body with
          | .ok st1 => run fuel st1 (.swhile c body :: rest)
          | r => r
        else run fuel st rest
      | .error er => .err er st

/-- Outcome of the whole pipeline of the source's main block:
tokenize, parse, execute. -/
inductive RunResult where
  | lexErr (c : Char)
  | lexTimeout
  | parseErr (e : PErr)
  | runRes (r : Res)
  deriving DecidableEq, Repr

/-- The source's main block: tokenize the text, parse the tokens,
execute the statements from an empty variable table. -/
def runProgram (fuel : Nat) (src : List Char) (inputs : List (List Char)) : RunResult :=
  match lex src with
  | .timeout => .lexTimeout
  | .err c => .lexErr c
  | .ok ts =>
    match parse fuel ts with
    | .error e => .parseErr e
    | .ok ast => .runRes (run fuel ⟨[], [], inputs⟩ ast)

theorem spanP_append (p : Char → Bool) (l : List Char) :
    (spanP p l).1 ++ (spanP p l).2 = l := by
  induction l with
  | nil => rfl
  | cons c cs ih => by_cases h : p c <;> simp [spanP, h, ih]

theorem stripLit_sound (pat : List Char) :
    ∀ code rest, stripLit pat code = some rest → code = pat ++ rest := by
  induction pat with
  | nil =>
    intro code rest h
    simp only [stripLit, Option.some.injEq] at h
    simp [h]
  | cons p ps ih =>
    intro code rest h
    cases code with
    | nil => simp [stripLit] at h
    | cons c cs =>
      simp only [stripLit] at h
      split at h
      · next hpc =>
        subst hpc
        rw [ih cs rest h]
        rfl
      · exact absurd h (by simp)

theorem stripLit_self : ∀ pat rest : List Char, stripLit pat (pat ++ rest) = some rest := by
  intro pat
  induction pat with
  | nil => intro rest; rfl
  | cons p ps ih => intro rest; simp [stripLit, ih]

theorem litMatch_sound (pat code v rest : List Char)
    (h : litMatch pat code = some (v, rest)) : v = pat ∧ code = pat ++ rest := by
  simp only [litMatch, Option.map_eq_some'] at h
  obtain ⟨r, hr, heq⟩ := h
  obtain ⟨rfl, rfl⟩ := Prod.mk.injEq .. ▸ heq
  exact ⟨rfl, stripLit_sound _ _ _ hr⟩

/-- Every successful rule match consumes the lexeme it returns, and the
lexeme is non-empty: the source's lexer always makes progress. -/
theorem tokenRegexMatch_sound (t : TokTy) (code v rest : List Char)
    (h : tokenRegexMatch t code = some (v, rest)) : code = v ++ rest ∧ v ≠ [] := by
  cases t
  case WHILE =>
    obtain ⟨rfl, h2⟩ := litMatch_sound _ _ _ _ h
    exact ⟨h2, by decide⟩
  case PRINT =>
    obtain ⟨rfl, h2⟩ := litMatch_sound _ _ _ _ h
    exact ⟨h2, by decide⟩
  case INPUT =>
    obtain ⟨rfl, h2⟩ := litMatch_sound _ _ _ _ h
    exact ⟨h2, by decide⟩
  case ASSIGN =>
    obtain ⟨rfl, h2⟩ := litMatch_sound _ _ _ _ h
    exact ⟨h2, by decide⟩
  case PLUS =>
    obtain ⟨rfl, h2⟩ := litMatch_sound _ _ _ _ h
    exact ⟨h2, by decide⟩
  case MINUS =>
    obtain ⟨rfl, h2⟩ := litMatch_sound _ _ _ _ h
    exact ⟨h2, by decide⟩
  case MULTIPLY =>
    obtain ⟨rfl, h2⟩ := litMatch_sound _ _ _ _ h
    exact ⟨h2, by decide⟩
  case DIVIDE =>
    obtain ⟨rfl, h2⟩ := litMatch_sound _ _ _ _ h
    exact ⟨h2, by decide⟩
  case LPAREN =>
    obtain ⟨rfl, h2⟩ := litMatch_sound _ _ _ _ h
    exact ⟨h2, by decide⟩
  case RPAREN =>
    obtain ⟨rfl, h2⟩ := litMatch_sound _ _ _ _ h
    exact ⟨h2, by decide⟩
  case LBRACE =>
    obtain ⟨rfl, h2⟩ := litMatch_sound _ _ _ _ h
    exact ⟨h2, by decide⟩
  case RBRACE =>
    obtain ⟨rfl, h2⟩ := litMatch_sound _ _ _ _ h
    exact ⟨h2, by decide⟩
  case LESS =>
    obtain ⟨rfl, h2⟩ := litMatch_sound _ _ _ _ h
    exact ⟨h2, by decide⟩
  case GREATER =>
    obtain ⟨rfl, h2⟩ := litMatch_sound _ _ _ _ h
    exact ⟨h2, by decide⟩
  case SEMICOLON =>
    obtain ⟨rfl, h2⟩ := litMatch_sound _ _ _ _ h
    exact ⟨h2, by decide⟩
  case NEWLINE =>
    obtain ⟨rfl, h2⟩ := litMatch_sound _ _ _ _ h
    exact ⟨h2, by decide⟩
  case NUMBER =>
    simp only [tokenRegexMatch] at h
    split at h
    · exact absurd h (by simp)
    · next hne =>
      obtain ⟨rfl, rfl⟩ := Prod.mk.injEq .. ▸ Option.some.injEq .. ▸ h
      refine ⟨(spanP_append _ _).symm, ?_⟩
      intro hnil
      rw [hnil] at hne
      exact hne rfl
  case WHITESPACE =>
    simp only [tokenRegexMatch] at h
    split at h
    · exact absurd h (by simp)
    · next hne =>
      obtain ⟨rfl, rfl⟩ := Prod.mk.injEq .. ▸ Option.some.injEq .. ▸ h
      refine ⟨(spanP_append _ _).symm, ?_⟩
      intro hnil
      rw [hnil] at hne
      exact hne rfl
  case IDENTIFIER =>
    cases code with
    | nil => simp [tokenRegexMatch] at h
    | cons c cs =>
      simp only [tokenRegexMatch] at h
      split at h
      · obtain ⟨rfl, rfl⟩ := Prod.mk.injEq .. ▸ Option.some.injEq .. ▸ h
        constructor
        · rw [List.cons_append, spanP_append]
        · simp
      · exact absurd h (by simp)
  case STRING =>
    simp only [tokenRegexMatch] at h
    split at h
    · next rest0 =>
      split at h
      · next rest2 heq2 =>
        obtain ⟨rfl, rfl⟩ := Prod.mk.injEq .. ▸ Option.some.injEq .. ▸ h
        constructor
        · have hsp := spanP_append (fun c => !(c = '"') && !(c = '\n')) rest0
          rw [heq2] at hsp
          simp only [List.cons_append, List.append_assoc, List.singleton_append,
            List.nil_append]
          rw [hsp]
        · simp
      · exact absurd h (by simp)
    · exact absurd h (by simp)

theorem firstMatchAux_matched :
    ∀ (os : List TokTy) (code : List Char) (ty : TokTy) (v rest : List Char),
      firstMatchAux os code = some (ty, v, rest) →
      tokenRegexMatch ty code = some (v, rest) := by
  intro os
  induction os with
  | nil => intro code ty v rest h; simp [firstMatchAux] at h
  | cons o os ih =>
    intro code ty v rest h
    simp only [firstMatchAux] at h
    split at h
    · next v1 rest1 heq =>
      obtain ⟨rfl, rfl, rfl⟩ : o = ty ∧ v1 = v ∧ rest1 = rest := by
        simpa using h
      exact heq
    · exact ih _ _ _ _ h

theorem firstMatchAux_mem :
    ∀ (os : List TokTy) (code : List Char) (ty : TokTy) (v rest : List Char),
      firstMatchAux os code = some (ty, v, rest) → ty ∈ os := by
  intro os
  induction os with
  | nil => intro code ty v rest h; simp [firstMatchAux] at h
  | cons o os ih =>
    intro code ty v rest h
    simp only [firstMatchAux] at h
    split at h
    · next v1 rest1 heq =>
      obtain ⟨rfl, -, -⟩ : o = ty ∧ v1 = v ∧ rest1 = rest := by simpa using h
      exact List.mem_cons_self _ _
    · exact List.mem_cons_of_mem _ (ih _ _ _ _ h)

theorem firstMatchAux_cons_ne (t0 : TokTy) (os : List TokTy) (code : List Char)
    (ty : TokTy) (v rest : List Char)
    (h : firstMatchAux (t0 :: os) code = some (ty, v, rest)) (hne : t0 ≠ ty) :
    tokenRegexMatch t0 code = none ∧ firstMatchAux os code = some (ty, v, rest) := by
  simp only [firstMatchAux] at h
  split at h
  · next v1 rest1 heq =>
    obtain ⟨h0, -, -⟩ : t0 = ty ∧ v1 = v ∧ rest1 = rest := by simpa using h
    exact absurd h0 hne
  · next heq => exact ⟨heq, h⟩

/-- If the winning rule is IDENTIFIER, the three keyword rules — which
come earlier in the table — all failed on this text. -/
theorem firstMatch_ident_earlier (code v rest : List Char)
    (h : firstMatch code = some (.IDENTIFIER, v, rest)) :
    tokenRegexMatch .WHILE code = none ∧ tokenRegexMatch .PRINT code = none ∧
      tokenRegexMatch .INPUT code = none := by
  simp only [firstMatch, tokenOrder] at h
  obtain ⟨h1, h⟩ := firstMatchAux_cons_ne _ _ _ _ _ _ h (by decide)
  obtain ⟨h2, h⟩ := firstMatchAux_cons_ne _ _ _ _ _ _ h (by decide)
  obtain ⟨h3, -⟩ := firstMatchAux_cons_ne _ _ _ _ _ _ h (by decide)
  exact ⟨h1, h2, h3⟩

/-- An IDENTIFIER lexeme chosen by the table is never a keyword lexeme:
the keyword rules precede the identifier rule, and a keyword lexeme at
the scan position makes the corresponding keyword rule match. -/
theorem firstMatch_ident_not_kw (code v rest : List Char)
    (h : firstMatch code = some (.IDENTIFIER, v, rest)) :
    v ≠ kwWhile ∧ v ≠ kwPrint ∧ v ≠ kwInput := by
  have hm := firstMatchAux_matched _ _ _ _ _ h
  have hsound := tokenRegexMatch_sound _ _ _ _ hm
  obtain ⟨hw, hp, hi⟩ := firstMatch_ident_earlier _ _ _ h
  refine ⟨?_, ?_, ?_⟩ <;> rintro rfl
  · rw [hsound.1] at hw
    simp [tokenRegexMatch, litMatch, stripLit_self] at hw
  · rw [hsound.1] at hp
    simp [tokenRegexMatch, litMatch, stripLit_self] at hp
  · rw [hsound.1] at hi
    simp [tokenRegexMatch, litMatch, stripLit_self] at hi

/-- C9: For every input text, no token produced by the lexer with lexeme
exactly `while`, `print`, or `input` has kind IDENTIFIER: the keyword
rules are tried before the identifier rule and carry no word-boundary
restriction, so a keyword lexeme at the scan position is always
tokenized as that keyword, and a variable named exactly `print` cannot
be lexed as an identifier. -/
theorem C9_keywords_never_identifier :
    ∀ (fuel : Nat) (code : List Char) (ts : List Token),
      tokenize fuel code = .ok ts →
      ∀ t ∈ ts, t.ty = .IDENTIFIER →
        t.val ≠ kwWhile ∧ t.val ≠ kwPrint ∧ t.val ≠ kwInput := by
  intro fuel
  induction fuel with
  | zero =>
    intro code ts h t ht hid
    cases code with
    | nil =>
      obtain rfl : ([] : List Token) = ts := by simpa [tokenize] using h
      simp at ht
    | cons c cs => simp [tokenize] at h
  | succ f ih =>
    intro code ts h t ht hid
    cases code with
    | nil =>
      obtain rfl : ([] : List Token) = ts := by simpa [tokenize] using h
      simp at ht
    | cons c cs =>
      simp only [tokenize] at h
      split at h
      · exact absurd h (by simp)
      · next ty v rest heq =>
        split at h
        · next ts1 heq2 =>
          obtain rfl : (if ty = .WHITESPACE ∨ ty = .NEWLINE then ts1
              else ⟨ty, v⟩ :: ts1) = ts := by simpa using h
          split at ht
          · exact ih _ _ heq2 t ht hid
          · rcases List.mem_cons.mp ht with rfl | hmem
            · have hty : ty = TokTy.IDENTIFIER := hid
              subst hty
              exact firstMatch_ident_not_kw _ _ _ heq
            · exact ih _ _ heq2 t hmem hid
        · next r hcon => exact absurd h (hcon ts)

/-- Witness for C9 at a concrete input: lexing `print x` produces the
PRINT keyword token and the identifier token `x`, and the theorem
applies to the identifier token. -/
theorem C9_keywords_never_identifier_witness :
    tokenize 7 (['p', 'r', 'i', 'n', 't', ' ', 'x']) =
      .ok [⟨.PRINT, kwPrint⟩, ⟨.IDENTIFIER, ['x']⟩] ∧
      (⟨.IDENTIFIER, ['x']⟩ : Token).val ≠ kwWhile := by
  refine ⟨by decide, ?_⟩
  exact (C9_keywords_never_identifier 7 (['p', 'r', 'i', 'n', 't', ' ', 'x'])
    [⟨.PRINT, kwPrint⟩, ⟨.IDENTIFIER, ['x']⟩] (by decide)
    ⟨.IDENTIFIER, ['x']⟩ (by simp) rfl).1

/-- C10: the lexer terminates on every finite input: with fuel equal to
the input length, `tokenize` returns a token list or a lexical error,
never the fuel-exhaustion marker — every matching rule consumes at
least one character, so each iteration strictly shortens the text. -/
theorem C10_tokenize_terminates :
    ∀ (fuel : Nat) (code : List Char), code.length ≤ fuel →
      tokenize fuel code ≠ .timeout := by
  intro fuel
  induction fuel with
  | zero =>
    intro code hlen
    interval_cases hc : code.length
    · cases code with
      | nil => simp [tokenize]
      | cons c cs => simp at hc
  | succ f ih =>
    intro code hlen
    cases code with
    | nil => simp [tokenize]
    | cons c cs =>
      simp only [tokenize]
      split
      · simp
      · next ty v rest heq =>
        have hm := firstMatchAux_matched _ _ _ _ _ heq
        obtain ⟨hcode, hv⟩ := tokenRegexMatch_sound _ _ _ _ hm
        have hrest : rest.length ≤ f := by
          have h1 : (c :: cs).length = v.length + rest.length := by
            rw [hcode, List.length_append]
          have h2 : 1 ≤ v.length := by
            cases v with
            | nil => exact absurd rfl hv
            | cons a as => simp
          omega
        have := ih rest hrest
        split
        · simp
        · exact this

/-- Witness for C10 at a concrete input. -/
theorem C10_tokenize_terminates_witness :
    (['x', ' ', '=', ' ', '1']).length ≤ 6 ∧
      tokenize 6 (['x', ' ', '=', ' ', '1']) ≠ .timeout :=
  ⟨by decide, C10_tokenize_terminates 6 (['x', ' ', '=', ' ', '1']) (by decide)⟩

theorem run_nil (f : Nat) (st : St) : run f st [] = .ok st := by
  cases f <;> rfl

/-- Whether a statement is a while loop. -/
def Stmt.isWhile : Stmt → Bool
  | .swhile _ _ => true
  | _ => false

/-- Fuel monotonicity: a completed execution (success or runtime error)
is stable under extra fuel. -/
theorem run_mono :
    ∀ (f : Nat) (st : St) (l : List Stmt) (r : Res) (f' : Nat),
      run f st l = r → r ≠ .timeout → f ≤ f' → run f' st l = r := by
  intro f
  induction f with
  | zero =>
    intro st l r f' h hr hle
    cases l with
    | nil => rw [run_nil] at h; rw [run_nil]; exact h
    | cons s rest =>
      exact absurd ((by simpa [run] using h.symm : r = .timeout)) hr
  | succ f ih =>
    intro st l r f' h hr hle
    obtain ⟨f1, rfl⟩ : ∃ f1, f' = f1 + 1 := ⟨f' - 1, by omega⟩
    have hle1 : f ≤ f1 := by omega
    cases l with
    | nil => rw [run_nil] at h; rw [run_nil]; exact h
    | cons s rest =>
      cases s with
      | assign x e =>
        cases he : evalExpr st.vars e with
        | ok v =>
          simp only [run, he] at h ⊢
          exact ih _ _ _ _ h hr hle1
        | error er =>
          simp only [run, he] at h ⊢
          exact h
      | sprint e =>
        cases he : evalExpr st.vars e with
        | ok v =>
          simp only [run, he] at h ⊢
          exact ih _ _ _ _ h hr hle1
        | error er =>
          simp only [run, he] at h ⊢
          exact h
      | sinput x =>
        cases hi : st.inputs with
        | cons line more =>
          simp only [run, hi] at h ⊢
          exact ih _ _ _ _ h hr hle1
        | nil =>
          simp only [run, hi] at h ⊢
          exact h
      | swhile c body =>
        cases he : evalExpr st.vars c with
        | error er =>
          simp only [run, he] at h ⊢
          exact h
        | ok v =>
          cases ht : truthy v with
          | false =>
            simp only [run, he, ht, if_false, Bool.false_eq_true, if_neg] at h ⊢
            exact ih _ _ _ _ h hr hle1
          | true =>
            simp only [run, he, ht, if_true] at h ⊢
            cases hb : run f st body with
            | ok st1 =>
              rw [hb] at h
              rw [ih _ _ _ _ hb (by simp) hle1]
              exact ih _ _ _ _ h hr hle1
            | err e1 st1 =>
              rw [hb] at h
              rw [ih _ _ _ _ hb (by simp) hle1]
              exact h
            | timeout =>
              rw [hb] at h
              exact absurd h.symm hr

/-- C5 (amended): a statement sequence that fails with a runtime error
fails at a specific k-th statement: the first k statements before it ran
to completion producing some state, the k-th statement run from that
state produces exactly the error and the final state (so prior
assignments and print output stand, with no rollback), and when the
failing statement is not a While (an Assign, Print or Input), the state
at failure is exactly the state after the first k statements — a
failing Assign stores nothing.  (A failing While may retain effects of
completed body statements, which is why the equality is restricted.) -/
theorem C5_error_at_kth_statement :
    ∀ (fuel : Nat) (st : St) (stmts : List Stmt) (e : RErr) (st' : St),
      run fuel st stmts = .err e st' →
      ∃ k s tail st1,
        stmts.drop k = s :: tail ∧
        run fuel st (stmts.take k) = .ok st1 ∧
        run fuel st1 [s] = .err e st' ∧
        (s.isWhile = false → st' = st1) := by
  intro fuel
  induction fuel with
  | zero =>
    intro st stmts e st' h
    cases stmts with
    | nil => rw [run_nil] at h; exact absurd h (by simp)
    | cons s rest => simp [run] at h
  | succ f ih =>
    intro st stmts e st' h
    cases stmts with
    | nil => rw [run_nil] at h; exact absurd h (by simp)
    | cons s rest =>
      cases s with
      | assign x e0 =>
        cases he : evalExpr st.vars e0 with
        | error er =>
          simp only [run, he] at h
          obtain ⟨rfl, rfl⟩ : er = e ∧ st = st' := by simpa using h
          refine ⟨0, .assign x e0, rest, st, rfl, run_nil _ _, ?_, fun _ => rfl⟩
          simp [run, he]
        | ok v =>
          simp only [run, he] at h
          obtain ⟨k, s2, tail, st2, hdrop, htake, herr, hiw⟩ := ih _ _ _ _ h
          refine ⟨k + 1, s2, tail, st2, by simpa using hdrop, ?_,
            run_mono _ _ _ _ _ herr (by simp) (by omega), hiw⟩
          simp only [List.take_succ_cons]
          simp only [run, he]
          exact htake
      | sprint e0 =>
        cases he : evalExpr st.vars e0 with
        | error er =>
          simp only [run, he] at h
          obtain ⟨rfl, rfl⟩ : er = e ∧ st = st' := by simpa using h
          refine ⟨0, .sprint e0, rest, st, rfl, run_nil _ _, ?_, fun _ => rfl⟩
          simp [run, he]
        | ok v =>
          simp only [run, he] at h
          obtain ⟨k, s2, tail, st2, hdrop, htake, herr, hiw⟩ := ih _ _ _ _ h
          refine ⟨k + 1, s2, tail, st2, by simpa using hdrop, ?_,
            run_mono _ _ _ _ _ herr (by simp) (by omega), hiw⟩
          simp only [List.take_succ_cons]
          simp only [run, he]
          exact htake
      | sinput x =>
        cases hi : st.inputs with
        | nil =>
          simp only [run, hi] at h
          obtain ⟨rfl, rfl⟩ : RErr.eofError = e ∧ st = st' := by simpa using h
          refine ⟨0, .sinput x, rest, st, rfl, run_nil _ _, ?_, fun _ => rfl⟩
          simp [run, hi]
        | cons line more =>
          simp only [run, hi] at h
          obtain ⟨k, s2, tail, st2, hdrop, htake, herr, hiw⟩ := ih _ _ _ _ h
          refine ⟨k + 1, s2, tail, st2, by simpa using hdrop, ?_,
            run_mono _ _ _ _ _ herr (by simp) (by omega), hiw⟩
          simp only [List.take_succ_cons]
          simp only [run, hi]
          exact htake
      | swhile c body =>
        cases he : evalExpr st.vars c with
        | error er =>
          simp only [run, he] at h
          obtain ⟨rfl, rfl⟩ : er = e ∧ st = st' := by simpa using h
          refine ⟨0, .swhile c body, rest, st, rfl, run_nil _ _, ?_,
            fun hw => by simp [Stmt.isWhile] at hw⟩
          simp [run, he]
        | ok v =>
          cases ht : truthy v with
          | false =>
            simp only [run, he, ht, Bool.false_eq_true, if_neg, if_false] at h
            obtain ⟨k, s2, tail, st2, hdrop, htake, herr, hiw⟩ := ih _ _ _ _ h
            refine ⟨k + 1, s2, tail, st2, by simpa using hdrop, ?_,
              run_mono _ _ _ _ _ herr (by simp) (by omega), hiw⟩
            simp only [List.take_succ_cons]
            simp only [run, he, ht, Bool.false_eq_true, if_neg, if_false]
            exact htake
          | true =>
            simp only [run, he, ht, if_true] at h
            cases hb : run f st body with
            | timeout => rw [hb] at h; exact absurd h (by simp)
            | err e1 st1 =>
              rw [hb] at h
              obtain ⟨rfl, rfl⟩ : e1 = e ∧ st1 = st' := by simpa using h
              refine ⟨0, .swhile c body, rest, st, rfl, run_nil _ _, ?_,
                fun hw => by simp [Stmt.isWhile] at hw⟩
              simp only [run, he, ht, if_true, hb]
            | ok st1 =>
              rw [hb] at h
              obtain ⟨k2, s2, tail2, st2, hdrop2, htake2, herr2, hiw2⟩ := ih _ _ _ _ h
              cases k2 with
              | zero =>
                obtain ⟨rfl, rfl⟩ : Stmt.swhile c body = s2 ∧ rest = tail2 := by
                  simpa using hdrop2
                obtain rfl : st1 = st2 := by
                  rw [List.take_zero, run_nil] at htake2
                  simpa using htake2
                refine ⟨0, .swhile c body, rest, st, rfl, run_nil _ _, ?_,
                  fun hw => by simp [Stmt.isWhile] at hw⟩
                simp only [run, he, ht, if_true, hb]
                exact herr2
              | succ k2' =>
                refine ⟨k2' + 1, s2, tail2, st2, by simpa using hdrop2, ?_,
                  run_mono _ _ _ _ _ herr2 (by simp) (by omega), hiw2⟩
                simp only [List.take_succ_cons]
                simp only [run, he, ht, if_true, hb]
                simpa using htake2

/-- The two-statement program `x = 0; while (x < 2) { x = x + 1; print z }`
used to refute the original form of C5. -/
def c5prog : List Stmt :=
  [.assign ['x'] (.num 0),
   .swhile (.binop .LESS (.ident ['x']) (.num 2))
     [.assign ['x'] (.binop .PLUS (.ident ['x']) (.num 1)),
      .sprint (.ident ['z'])]]

/-- Counterexample to C5 as stated: this program fails with a runtime
error at its 2nd statement (the while), but the environment at the
moment of failure (x = 1, mutated by the completed first body
statement) differs from the environment produced by the first
1 statement (x = 0): the failing While is not rolled back to the
statement boundary. -/
theorem C5_counterexample :
    run 20 ⟨[], [], []⟩ c5prog = .err (.nameError ['z']) ⟨[(['x'], .int 1)], [], []⟩ ∧
    run 20 ⟨[], [], []⟩ (c5prog.take 1) = .ok ⟨[(['x'], .int 0)], [], []⟩ ∧
    (⟨[(['x'], .int 1)], [], []⟩ : St) ≠ ⟨[(['x'], .int 0)], [], []⟩ :=
  ⟨by decide, by decide, by decide⟩

/-- Witness for C5 (amended) at a concrete input: a one-statement
program failing at its print statement. -/
theorem C5_error_at_kth_statement_witness :
    run 5 ⟨[], [], []⟩ [.sprint (.ident ['q'])] = .err (.nameError ['q']) ⟨[], [], []⟩ ∧
    ∃ k s tail st1,
      ([Stmt.sprint (.ident ['q'])].drop k) = s :: tail ∧
      run 5 ⟨[], [], []⟩ ([Stmt.sprint (.ident ['q'])].take k) = .ok st1 ∧
      run 5 st1 [s] = .err (.nameError ['q']) ⟨[], [], []⟩ ∧
      (s.isWhile = false → (⟨[], [], []⟩ : St) = st1) :=
  ⟨by decide,
   C5_error_at_kth_statement 5 ⟨[], [], []⟩ [.sprint (.ident ['q'])]
     (.nameError ['q']) ⟨[], [], []⟩ (by decide)⟩

/-- Counterexample to C3 as stated: a While whose condition evaluates to
a string executes without any runtime error — the value is silently
coerced by Python truthiness.  The empty-string condition is falsy, so
the loop exits cleanly; a non-empty-string condition is truthy, so the
body runs (here it overwrites x with the empty string, after which the
loop stops) — in neither case does execution fail. -/
theorem C3_counterexample :
    run 2 ⟨[], [], []⟩ [.swhile (.str []) []] = .ok ⟨[], [], []⟩ ∧
    run 5 ⟨[(['x'], .str ['a'])], [], []⟩
        [.swhile (.ident ['x']) [.assign ['x'] (.str [])]] =
      .ok ⟨[(['x'], .str [])], [], []⟩ :=
  ⟨by decide, by decide⟩

/-- C3 (amended): the While condition is re-evaluated before every
iteration (the loop re-entry below re-inspects the condition in the
updated state); a condition value that is not a boolean is not a
runtime error but is coerced with Python truthiness — in particular a
string condition tests emptiness: the empty string ends the loop
immediately with no error, and a non-empty string runs the body and
loops. -/
theorem C3_while_string_condition (fuel : Nat) (st : St) (c : Expr)
    (body : List Stmt) (s : List Char)
    (h : evalExpr st.vars c = .ok (.str s)) :
    run (fuel + 1) st [.swhile c body] =
      (if s.isEmpty then .ok st
       else
         match run fuel st body with
         | .ok st1 => run fuel st1 [.swhile c body]
         | r => r) := by
  cases hs : s.isEmpty with
  | true => simp [run, h, truthy, hs, run_nil]
  | false => simp [run, h, truthy, hs]

/-- Witness for C3 (amended) at a concrete input: the empty-string
condition. -/
theorem C3_while_string_condition_witness :
    evalExpr (⟨[], [], []⟩ : St).vars (.str []) = .ok (.str []) ∧
    run 2 ⟨[], [], []⟩ [.swhile (.str []) []] =
      (if ([] : List Char).isEmpty then Res.ok ⟨[], [], []⟩
       else
         match run 1 ⟨[], [], []⟩ ([] : List Stmt) with
         | .ok st1 => run 1 st1 [.swhile (.str []) []]
         | r => r) :=
  ⟨rfl, C3_while_string_condition 1 ⟨[], [], []⟩ (.str []) [] [] rfl⟩

/-- C6: evaluating an identifier that is not a key of the environment
fails with the undefined-variable (`NameError`) runtime error naming
that identifier; no default value is substituted, and a statement
failing this way leaves the whole state (environment included)
unchanged. -/
theorem C6_undefined_variable (env : Env) (x : List Char)
    (h : lookupVar x env = none) :
    evalExpr env (.ident x) = .error (.nameError x) ∧
    ∀ (fuel : Nat) (st : St), st.vars = env →
      run (fuel + 1) st [.sprint (.ident x)] = .err (.nameError x) st := by
  constructor
  · simp [evalExpr, h]
  · intro fuel st hst
    simp [run, evalExpr, hst, h]

/-- Witness for C6 at a concrete input: the empty environment and the
identifier `y`. -/
theorem C6_undefined_variable_witness :
    evalExpr [] (.ident ['y']) = .error (.nameError ['y']) ∧
    run 1 ⟨[], [], []⟩ [.sprint (.ident ['y'])] =
      .err (.nameError ['y']) ⟨[], [], []⟩ :=
  ⟨(C6_undefined_variable [] ['y'] rfl).1,
   (C6_undefined_variable [] ['y'] rfl).2 0 ⟨[], [], []⟩ rfl⟩

/-- C7: division of numeric operand values with a zero divisor fails
with the single fixed `ZeroDivisionError` runtime error (never a
produced infinity, never a different failure), and with a non-zero
divisor DIVIDE performs true, non-truncating division: the quotient
times the divisor gives back the dividend exactly. -/
theorem C7_divide_by_zero (env : Env) (el er : Expr) (a b : Value) (qa qb : ℚ)
    (ha : evalExpr env el = .ok a) (hb : evalExpr env er = .ok b)
    (hqa : numQ a = some qa) (hqb : numQ b = some qb) :
    (qb = 0 → evalExpr env (.binop .DIVIDE el er) = .error .zeroDivisionError) ∧
    (qb ≠ 0 →
      evalExpr env (.binop .DIVIDE el er) = .ok (.float (qa / qb)) ∧
        qa / qb * qb = qa) := by
  have hev : evalExpr env (.binop .DIVIDE el er) = pyDiv a b := by
    simp [evalExpr, ha, hb, applyOp]
  constructor
  · rintro rfl
    rw [hev]
    simp [pyDiv, hqa, hqb]
  · intro hne
    rw [hev]
    exact ⟨by simp [pyDiv, hqa, hqb, hne], div_mul_cancel₀ qa hne⟩

/-- Witness for C7 at concrete inputs: `7 / 2` is exactly 7/2 (true
division, non-truncating), and `1 / 0` is the `ZeroDivisionError`. -/
theorem C7_divide_by_zero_witness :
    (evalExpr [] (.binop .DIVIDE (.num 7) (.num 2)) = .ok (.float (7 / 2)) ∧
      (7 : ℚ) / 2 * 2 = 7) ∧
    evalExpr [] (.binop .DIVIDE (.num 1) (.num 0)) = .error .zeroDivisionError :=
  ⟨(C7_divide_by_zero [] (.num 7) (.num 2) (.int 7) (.int 2) 7 2
      rfl rfl (by norm_num [numQ]) (by norm_num [numQ])).2 (by norm_num),
   (C7_divide_by_zero [] (.num 1) (.num 0) (.int 1) (.int 0) 1 0
      rfl rfl (by norm_num [numQ]) (by norm_num [numQ])).1 rfl⟩

/-- The C1 source text with the parenthesized while condition. -/
def srcC1paren : List Char := "x = 0; while (x < 3) { x = x + 1; }".toList

/-- The same program with the condition not parenthesized. -/
def srcC1plain : List Char := "x = 0; while x < 3 { x = x + 1; }".toList

/-- Counterexample to C1 as stated: the pipeline on
`x = 0; while (x < 3) { x = x + 1; }` does not succeed — the
parenthesized factor production parses only arithmetic expressions, so
after `(x` the parser demands RPAREN and finds the LESS token, a syntax
error.  Comparisons cannot appear inside parentheses, and `parse_while`
never consumes parentheses around the condition. -/
theorem C1_counterexample :
    runProgram 100 srcC1paren [] =
      .parseErr (.expectedTok .RPAREN (some ⟨.LESS, ['<']⟩)) := by decide

/-- C1 (amended): the parenthesized condition is rejected, and with the
unparenthesized source `x = 0; while x < 3 { x = x + 1; }` the full
pipeline succeeds and execution halts with the environment mapping `x`
to 3 (the body, incrementing `x` by 1 from 0, hence ran three times). -/
theorem C1_while_loop_runs :
    runProgram 100 srcC1plain [] =
      .runRes (.ok ⟨[(['x'], .int 3)], [], []⟩) := by decide

/-- The C2 source text. -/
def srcC2 : List Char := "s = \"hi\";  print s;".toList

/-- C2 fails on the code: `parse_factor` has no STRING case (the
quote-stripping `parse_string` exists but is dead code), so the
pipeline on `s = "hi";  print s;` stops with a syntax error at the
string token instead of printing `hi`.  The second conjunct shows the
dead helper would have stripped the quotes as the claim describes. -/
theorem C2_string_literal_rejected :
    runProgram 100 srcC2 [] =
      .parseErr (.unexpectedTok ⟨.STRING, ['"', 'h', 'i', '"']⟩) ∧
    parse_string [⟨.STRING, ['"', 'h', 'i', '"']⟩] = .ok (.str ['h', 'i'], []) :=
  ⟨by decide, rfl⟩

/-- C4 fails on the code: on the tokens of `x = 1 +` the parser does
not produce a syntax error naming an expected kind and the found token
— `parse_factor` subscripts the peeked token with no token left, the
`TypeError` crash modelled by `noneSubscript` (a failure mode distinct
from every `SyntaxError`). -/
theorem C4_eof_crash_not_syntax_error :
    lex (['x', ' ', '=', ' ', '1', ' ', '+']) =
      .ok [⟨.IDENTIFIER, ['x']⟩, ⟨.ASSIGN, ['=']⟩, ⟨.NUMBER, ['1']⟩, ⟨.PLUS, ['+']⟩] ∧
    parse 100 [⟨.IDENTIFIER, ['x']⟩, ⟨.ASSIGN, ['=']⟩, ⟨.NUMBER, ['1']⟩,
      ⟨.PLUS, ['+']⟩] = .error .noneSubscript :=
  ⟨by decide, rfl⟩

/-- Tokens of `2 + 3 * 4`. -/
def tsArith1 : List Token :=
  [⟨.NUMBER, ['2']⟩, ⟨.PLUS, ['+']⟩, ⟨.NUMBER, ['3']⟩,
   ⟨.MULTIPLY, ['*']⟩, ⟨.NUMBER, ['4']⟩]

/-- Tokens of `(2 + 3) * 4`. -/
def tsArith2 : List Token :=
  [⟨.LPAREN, ['(']⟩, ⟨.NUMBER, ['2']⟩, ⟨.PLUS, ['+']⟩, ⟨.NUMBER, ['3']⟩,
   ⟨.RPAREN, [')']⟩, ⟨.MULTIPLY, ['*']⟩, ⟨.NUMBER, ['4']⟩]

/-- Tokens of `1 - 2 - 3`. -/
def tsArith3 : List Token :=
  [⟨.NUMBER, ['1']⟩, ⟨.MINUS, ['-']⟩, ⟨.NUMBER, ['2']⟩,
   ⟨.MINUS, ['-']⟩, ⟨.NUMBER, ['3']⟩]

/-- C8: MULTIPLY/DIVIDE bind tighter than PLUS/MINUS and each level
folds left-associatively: `2 + 3 * 4` parses as 2 + (3 * 4) and the
pipeline evaluates it to 14, `(2 + 3) * 4` parses with the grouped sum
on the left and evaluates to 20, and `1 - 2 - 3` parses as
(1 - 2) - 3 (left association). -/
theorem C8_precedence :
    parse_expression 100 tsArith1 =
      .ok (.binop .PLUS (.num 2) (.binop .MULTIPLY (.num 3) (.num 4)), []) ∧
    runProgram 100 ("x = 2 + 3 * 4".toList) [] =
      .runRes (.ok ⟨[(['x'], .int 14)], [], []⟩) ∧
    parse_expression 100 tsArith2 =
      .ok (.binop .MULTIPLY (.binop .PLUS (.num 2) (.num 3)) (.num 4), []) ∧
    runProgram 100 ("x = (2 + 3) * 4".toList) [] =
      .runRes (.ok ⟨[(['x'], .int 20)], [], []⟩) ∧
    parse_expression 100 tsArith3 =
      .ok (.binop .MINUS (.binop .MINUS (.num 1) (.num 2)) (.num 3), []) :=
  ⟨rfl, by decide, rfl, by decide, rfl⟩
